/-
  Verification of the exchange-rate and interest-accrual engine of the
  anchor-staking-relayer repository (src/contract.rs).

  The repository ships a single source file, src/contract.rs, containing the
  entry points `init`, `execute`, `receive_cw20` and `query`; those are
  embedded here directly from the source.  The engine functions they call
  (`compute_exchange_rate_raw`, `deposit_stable`, `redeem_stable`, interest
  accrual and the epoch reconciler, all in `crate::deposit` and sibling
  modules) are not part of the source tree; they are modelled from the
  specification (spec.md sections 4.1-4.5) and each such definition is marked
  `Modelled from the spec:` in its doc comment.

  All fixed-point decimals (Decimal256) are represented as natural numbers
  scaled by SCALE = 10^18, the spec's recommended 18 fractional digits;
  division floors, matching the ledger's rounding rule.  Addresses, names and
  symbols are represented by opaque natural-number identifiers.
-/
import Mathlib

namespace AnchorMarket

/-- Fixed-point scaling factor: 18 fractional decimal digits. -/
def SCALE : Nat := 10 ^ 18

/-- Errors of the engine, from spec section 7 and the error variants used in
src/contract.rs (`Unauthorized`, `MissingRedeemStableHook`). -/
inductive ContractError where
  | ZeroAmount
  | Underflow
  | DivideByZero
  | InsufficientPoolLiquidity
  | ReserveExceedsPool
  | BlockHeightRegression
  | EpochTooSoon
  | Unauthorized
  | MissingRedeemStableHook
deriving DecidableEq

/-- Modelled from the spec: `compute_exchange_rate` (section 4.2); the source
function `compute_exchange_rate_raw` lives in `crate::deposit`, which is not in
the source tree.  Bootstrap: a zero share supply yields exactly 1.0 regardless
of the other inputs (spec section 8, exchange-rate bootstrap property); with a
positive supply the reserve precondition is checked and the rate is
`(cash_balance + total_liabilities - total_reserves) / share_supply` under the
ledger's floor-division rule. -/
def compute_exchange_rate (cash_balance total_liabilities total_reserves share_supply : Nat) :
    Except ContractError Nat :=
  if share_supply = 0 then .ok SCALE
  else if cash_balance + total_liabilities < total_reserves then .error .ReserveExceedsPool
  else .ok ((cash_balance + total_liabilities - total_reserves) * SCALE / share_supply)

/-- Modelled from the spec: the Pool State fields the engine operations touch
(spec section 3), together with the pool's cash balance and the share-asset
total supply, which the surrounding chain tracks for the contract.  Reward
fields not used by the engine operations are omitted here; the full persisted
record of `init` is embedded separately as `State`. -/
structure PoolState where
  cash : Nat
  total_liabilities : Nat
  total_reserves : Nat
  aterra_supply : Nat
  global_interest_index : Nat
  last_interest_updated : Nat
  anc_emission_rate : Nat
deriving DecidableEq

/-- Fixed-point power: `base ^ n` with 18-digit fixed-point multiplication,
flooring after every step (spec section 4.4, repeated exponentiation). -/
def fpPow (base : Nat) : Nat → Nat
  | 0 => SCALE
  | n + 1 => fpPow base n * base / SCALE

/-- Modelled from the spec: the compounding factor `(1 + r)^delta` of the
interest-accrual engine (spec section 4.4), `r` being the borrow rate supplied
by the external interest-rate model. -/
def compute_interest_factor (borrow_rate blocks_elapsed : Nat) : Nat :=
  fpPow (SCALE + borrow_rate) blocks_elapsed

/-- Modelled from the spec: the interest-accrual engine (spec section 4.4);
the source implementation lives outside the source tree.  A call at the height
last accrued to is a no-op; a call at a later height multiplies the interest
index by `(1 + r)^delta` and grows liabilities by
`total_liabilities * ((1 + r)^delta - 1)`; an earlier height is a
`BlockHeightRegression`. -/
def accrue (st : PoolState) (height borrow_rate : Nat) : Except ContractError PoolState :=
  if height < st.last_interest_updated then .error .BlockHeightRegression
  else if height = st.last_interest_updated then .ok st
  else
    let factor := compute_interest_factor borrow_rate (height - st.last_interest_updated)
    .ok { st with
          total_liabilities :=
            st.total_liabilities + st.total_liabilities * (factor - SCALE) / SCALE,
          global_interest_index := st.global_interest_index * factor / SCALE,
          last_interest_updated := height }

/-- Modelled from the spec: a sequence of interest-accrual calls, each given as
a (block height, borrow rate) pair, run left to right; a failing call aborts
the run (spec sections 4.4 and 5). -/
def runAccruals (st : PoolState) : List (Nat × Nat) → Except ContractError PoolState
  | [] => .ok st
  | (h, r) :: rest =>
    match accrue st h r with
    | .error e => .error e
    | .ok st2 => runAccruals st2 rest

/-- Modelled from the spec: `deposit_stable` (spec section 4.3); the source
function is imported from `crate::deposit`, which is not in the source tree.
The incoming amount is credited to the cash balance only after the exchange
rate is computed, so the rate is taken against the pre-transfer balance; the
shares minted are `amount / exchange_rate` under floor division, and a zero
rate is a `DivideByZero`.  Returns the new pool state and the shares minted. -/
def deposit_stable (st : PoolState) (amount height borrow_rate : Nat) :
    Except ContractError (PoolState × Nat) :=
  if amount = 0 then .error .ZeroAmount
  else
    match accrue st height borrow_rate with
    | .error e => .error e
    | .ok stA =>
      match compute_exchange_rate stA.cash stA.total_liabilities stA.total_reserves
          stA.aterra_supply with
      | .error e => .error e
      | .ok rate =>
        if rate = 0 then .error .DivideByZero
        else
          .ok ({ stA with
                 cash := stA.cash + amount,
                 aterra_supply := stA.aterra_supply + amount * SCALE / rate },
               amount * SCALE / rate)

/-- Modelled from the spec: `redeem_stable` (spec section 4.3); the source
function is imported from `crate::deposit`, which is not in the source tree.
The payout is `burn_amount * exchange_rate` floor-rounded; it fails with
`InsufficientPoolLiquidity` when the payout exceeds the current cash balance,
and otherwise debits the cash balance and burns the shares.  Returns the new
pool state and the payout. -/
def redeem_stable (st : PoolState) (burn_amount height borrow_rate : Nat) :
    Except ContractError (PoolState × Nat) :=
  if burn_amount = 0 then .error .ZeroAmount
  else
    match accrue st height borrow_rate with
    | .error e => .error e
    | .ok stA =>
      match compute_exchange_rate stA.cash stA.total_liabilities stA.total_reserves
          stA.aterra_supply with
      | .error e => .error e
      | .ok rate =>
        if stA.cash < burn_amount * rate / SCALE then .error .InsufficientPoolLiquidity
        else
          .ok ({ stA with
                 cash := stA.cash - burn_amount * rate / SCALE,
                 aterra_supply := stA.aterra_supply - burn_amount },
               burn_amount * rate / SCALE)

/-- Modelled from the spec: the epoch reconciler (spec section 4.5).  The
adjustment amount and the new emission rate come from the external distribution
model; reserves either absorb a surplus or release a deficit, clamped so that
`total_reserves` never goes negative and never exceeds
`cash_balance + total_liabilities`; `EpochTooSoon` surfaces the overseer's
minimum-interval precondition. -/
def execute_epoch_operations (st : PoolState) (height borrow_rate adjustment new_emission : Nat)
    (absorb epoch_elapsed : Bool) : Except ContractError PoolState :=
  if epoch_elapsed = false then .error .EpochTooSoon
  else
    match accrue st height borrow_rate with
    | .error e => .error e
    | .ok stA =>
      .ok { stA with
            total_reserves :=
              if absorb then
                min (stA.total_reserves + adjustment) (stA.cash + stA.total_liabilities)
              else stA.total_reserves - adjustment,
            anc_emission_rate := new_emission }

/-- Modelled from the spec: the state-mutating operations of the engine
(deposit, redeem, accrual, epoch reconciliation), spec sections 4.3-4.5. -/
inductive Op where
  | depositOp (amount height borrow_rate : Nat)
  | redeemOp (shares height borrow_rate : Nat)
  | accrueOp (height borrow_rate : Nat)
  | epochOp (height borrow_rate adjustment new_emission : Nat) (absorb epoch_elapsed : Bool)
deriving DecidableEq

/-- Modelled from the spec: one serialized entry-point invocation against the
pool state (spec section 5): the operation either fully commits or fails
atomically with no partial state change, so a failing call leaves the state
unchanged.  A redeem is applied only when the caller owns the shares, i.e. the
burn amount is covered by the share supply; ownership is enforced by the
external share ledger (spec section 4.3). -/
def step (st : PoolState) : Op → PoolState
  | .depositOp a h r =>
    match deposit_stable st a h r with
    | .ok (st2, _) => st2
    | .error _ => st
  | .redeemOp s h r =>
    if s ≤ st.aterra_supply then
      match redeem_stable st s h r with
      | .ok (st2, _) => st2
      | .error _ => st
    else st
  | .accrueOp h r =>
    match accrue st h r with
    | .ok st2 => st2
    | .error _ => st
  | .epochOp h r adj em absorb elapsed =>
    match execute_epoch_operations st h r adj em absorb elapsed with
    | .ok st2 => st2
    | .error _ => st

/-- Modelled from the spec: the pool state at contract instantiation (spec
section 3, lifecycle): liabilities and reserves zero, interest index one; the
chain-side cash balance, the share supply minted at instantiation, the initial
emission rate and the instantiation height are parameters. -/
def initPoolState (cash0 supply0 emission0 height0 : Nat) : PoolState :=
  { cash := cash0
    total_liabilities := 0
    total_reserves := 0
    aterra_supply := supply0
    global_interest_index := SCALE
    last_interest_updated := height0
    anc_emission_rate := emission0 }

/-- Reserve-bound invariant of spec section 8: reserves never exceed
`cash_balance + total_liabilities` (non-negativity is inherent to `Nat`). -/
def reserveInv (st : PoolState) : Prop :=
  st.total_reserves ≤ st.cash + st.total_liabilities

/-- The persisted market state record written by `init`
(src/contract.rs lines 56-69), fields in source order; `Decimal256` values are
scaled by `SCALE`, so `Decimal256::one()` is `SCALE`. -/
structure State where
  total_liabilities : Nat
  total_reserves : Nat
  last_interest_updated : Nat
  last_reward_updated : Nat
  global_interest_index : Nat
  global_reward_index : Nat
  anc_emission_rate : Nat
  prev_aterra_supply : Nat
  prev_exchange_rate : Nat
deriving DecidableEq

/-- The `store_state` record constructed by `init` in src/contract.rs lines
56-69: liabilities and reserves zero, both last-updated heights the current
block height, interest index one, reward index zero, the emission rate from
the instantiate message, previous supply zero and previous rate one. -/
def init (block_height msg_anc_emission_rate : Nat) : State :=
  { total_liabilities := 0
    total_reserves := 0
    last_interest_updated := block_height
    last_reward_updated := block_height
    global_interest_index := SCALE
    global_reward_index := 0
    anc_emission_rate := msg_anc_emission_rate
    prev_aterra_supply := 0
    prev_exchange_rate := SCALE }

/-- The cw20 hook carried by a `Receive` message; `Cw20HookMsg` in the source
has the single variant `RedeemStable {}` (src/contract.rs line 198). -/
inductive Cw20HookMsg where
  | RedeemStable
deriving DecidableEq

/-- The market configuration fields read by `receive_cw20`; addresses are
opaque canonical identifiers. -/
structure MarketConfig where
  aterra_contract : Nat
deriving DecidableEq

/-- `receive_cw20` from src/contract.rs lines 190-210, with the outcome of
`from_binary(&cw20_msg.msg)` passed in as `decoded` (a failed deserialization
is `Except.error ()`).  A decoded `RedeemStable` hook from a sender other than
the configured aterra contract is `Unauthorized`; from the aterra contract it
runs `redeem_stable` on the sent amount; anything that does not decode to the
hook is `MissingRedeemStableHook`. -/
def receive_cw20 (decoded : Except Unit Cw20HookMsg) (sender : Nat) (config : MarketConfig)
    (amount : Nat) (st : PoolState) (height borrow_rate : Nat) :
    Except ContractError (PoolState × Nat) :=
  match decoded with
  | .ok .RedeemStable =>
    if sender ≠ config.aterra_contract then .error .Unauthorized
    else redeem_stable st amount height borrow_rate
  | .error _ => .error .MissingRedeemStableHook

/-- The pool state after a `receive_cw20` invocation: the new state on
success, the unchanged state on any error (atomicity, spec section 5). -/
def stepReceive (decoded : Except Unit Cw20HookMsg) (sender : Nat) (config : MarketConfig)
    (amount : Nat) (st : PoolState) (height borrow_rate : Nat) : PoolState :=
  match receive_cw20 decoded sender config amount st height borrow_rate with
  | .ok (st2, _) => st2
  | .error _ => st

/-- The token-side configuration read by `query` (crate::state `Config` with
fields `name`, `symbol`, `owner`); names and addresses are opaque
identifiers. -/
structure TokenConfig where
  name : Nat
  symbol : Nat
  owner : Nat
deriving DecidableEq

/-- The storage visible to `query`: the balance map read by `balance_get` and
the token configuration read by `config_get`. -/
structure ContractStore where
  balances : Nat → Nat
  config : TokenConfig

/-- The query messages handled by `query` in src/contract.rs lines 212-233:
`Balance { address }` and `Config {}`. -/
inductive QueryMsg where
  | Balance (address : Nat)
  | Config
deriving DecidableEq

/-- Query responses.  The source serializes `BalanceResponse` and
`ConfigResponse`; `state` mirrors the `StateResponse` type imported on
src/contract.rs line 17, carrying the pool-state fields a state query would
return, so that the absence of such a response is expressible. -/
inductive QueryResponse where
  | balance (balance : Nat)
  | configRes (name symbol owner : Nat)
  | state (total_liabilities total_reserves global_interest_index global_reward_index
      anc_emission_rate exchange_rate aterra_supply : Nat)
deriving DecidableEq

/-- `query` from src/contract.rs lines 212-233: `Balance { address }` returns
the stored balance for the address, `Config {}` returns the token name, symbol
and owner. -/
def query (deps : ContractStore) : QueryMsg → QueryResponse
  | .Balance address => .balance (deps.balances address)
  | .Config => .configRes deps.config.name deps.config.symbol deps.config.owner

theorem SCALE_pos : 0 < SCALE := by
  unfold SCALE
  positivity

/-- Fixed-point powers of a base of at least one are at least one. -/
theorem fpPow_ge_scale {base : Nat} (hb : SCALE ≤ base) : ∀ n, SCALE ≤ fpPow base n
  | 0 => le_refl _
  | n + 1 => by
    have ih := fpPow_ge_scale hb n
    show SCALE ≤ fpPow base n * base / SCALE
    calc SCALE = SCALE * SCALE / SCALE := (Nat.mul_div_cancel _ SCALE_pos).symm
    _ ≤ fpPow base n * base / SCALE := Nat.div_le_div_right (Nat.mul_le_mul ih hb)

/-- A successful accrual call leaves cash, reserves, supply and emission rate
unchanged, sets the last-updated height to the call height, and does not
decrease liabilities or the interest index. -/
theorem accrue_ok_facts {st st2 : PoolState} {h r : Nat} (hacc : accrue st h r = .ok st2) :
    st2.cash = st.cash ∧ st2.total_reserves = st.total_reserves ∧
    st2.aterra_supply = st.aterra_supply ∧ st2.last_interest_updated = h ∧
    st.total_liabilities ≤ st2.total_liabilities ∧
    st.global_interest_index ≤ st2.global_interest_index ∧
    st2.anc_emission_rate = st.anc_emission_rate := by
  unfold accrue at hacc
  split at hacc
  · exact absurd hacc (by simp)
  · split at hacc
    · rename_i hlt heq
      injection hacc with h2
      subst h2
      exact ⟨rfl, rfl, rfl, heq.symm, le_refl _, le_refl _, rfl⟩
    · rename_i hlt hne
      injection hacc with h2
      subst h2
      refine ⟨rfl, rfl, rfl, rfl, Nat.le_add_right _ _, ?_, rfl⟩
      have hfac : SCALE ≤ compute_interest_factor r (h - st.last_interest_updated) :=
        fpPow_ge_scale (Nat.le_add_right _ _) _
      calc st.global_interest_index
          = st.global_interest_index * SCALE / SCALE :=
            (Nat.mul_div_cancel _ SCALE_pos).symm
      _ ≤ st.global_interest_index * compute_interest_factor r (h - st.last_interest_updated)
            / SCALE := Nat.div_le_div_right (Nat.mul_le_mul_left _ hfac)

/-- Accrual at the height last accrued to is a no-op. -/
theorem accrue_at_last {st : PoolState} {h : Nat} (hh : st.last_interest_updated = h)
    (r : Nat) : accrue st h r = .ok st := by
  unfold accrue
  rw [hh]
  simp

/-- A successful run of accrual calls never decreases liabilities or the
interest index. -/
theorem runAccruals_mono : ∀ (calls : List (Nat × Nat)) (st st2 : PoolState),
    runAccruals st calls = .ok st2 →
    st.total_liabilities ≤ st2.total_liabilities ∧
    st.global_interest_index ≤ st2.global_interest_index
  | [], st, st2, hrun => by
    unfold runAccruals at hrun
    injection hrun with h2
    subst h2
    exact ⟨le_refl _, le_refl _⟩
  | (h, r) :: rest, st, st2, hrun => by
    unfold runAccruals at hrun
    split at hrun
    · exact absurd hrun (by simp)
    · rename_i stm hacc
      obtain ⟨-, -, -, -, hliab, hidx, -⟩ := accrue_ok_facts hacc
      obtain ⟨hliab2, hidx2⟩ := runAccruals_mono rest stm st2 hrun
      exact ⟨le_trans hliab hliab2, le_trans hidx hidx2⟩

/-- Success characterization of `compute_exchange_rate` at a positive share
supply: the reserve precondition holds and the rate is the floored quotient. -/
theorem cer_ok_pos {c l r s rate : Nat} (hs : s ≠ 0)
    (hcer : compute_exchange_rate c l r s = .ok rate) :
    r ≤ c + l ∧ rate = (c + l - r) * SCALE / s := by
  unfold compute_exchange_rate at hcer
  rw [if_neg hs] at hcer
  split at hcer
  · exact absurd hcer (by simp)
  · rename_i hge
    injection hcer with h2
    exact ⟨Nat.le_of_not_lt hge, h2.symm⟩

/-- Success characterization of `deposit_stable`. -/
theorem deposit_ok_facts {st st2 : PoolState} {amount h r sh : Nat}
    (hdep : deposit_stable st amount h r = .ok (st2, sh)) :
    ∃ stA rate, accrue st h r = .ok stA ∧
      compute_exchange_rate stA.cash stA.total_liabilities stA.total_reserves
        stA.aterra_supply = .ok rate ∧
      amount ≠ 0 ∧ rate ≠ 0 ∧ sh = amount * SCALE / rate ∧
      st2 = { stA with cash := stA.cash + amount,
                       aterra_supply := stA.aterra_supply + amount * SCALE / rate } := by
  unfold deposit_stable at hdep
  split at hdep
  · exact absurd hdep (by simp)
  · rename_i hamt
    split at hdep
    · exact absurd hdep (by simp)
    · rename_i stA hacc
      split at hdep
      · exact absurd hdep (by simp)
      · rename_i rate hcer
        split at hdep
        · exact absurd hdep (by simp)
        · rename_i hr0
          injection hdep with h2
          injection h2 with h2a h2b
          exact ⟨stA, rate, hacc, hcer, hamt, hr0, h2b.symm, h2a.symm⟩

/-- Success characterization of `redeem_stable`. -/
theorem redeem_ok_facts {st st2 : PoolState} {burn h r out : Nat}
    (hred : redeem_stable st burn h r = .ok (st2, out)) :
    ∃ stA rate, accrue st h r = .ok stA ∧
      compute_exchange_rate stA.cash stA.total_liabilities stA.total_reserves
        stA.aterra_supply = .ok rate ∧
      burn ≠ 0 ∧ out = burn * rate / SCALE ∧ out ≤ stA.cash ∧
      st2 = { stA with cash := stA.cash - out,
                       aterra_supply := stA.aterra_supply - burn } := by
  unfold redeem_stable at hred
  split at hred
  · exact absurd hred (by simp)
  · rename_i hburn
    split at hred
    · exact absurd hred (by simp)
    · rename_i stA hacc
      split at hred
      · exact absurd hred (by simp)
      · rename_i rate hcer
        split at hred
        · exact absurd hred (by simp)
        · rename_i hliq
          injection hred with h2
          injection h2 with h2a h2b
          subst h2b
          exact ⟨stA, rate, hacc, hcer, hburn, rfl, Nat.le_of_not_lt hliq,
            h2a.symm⟩

/-- Core round-trip bound: shares bought at rate `P * SCALE / S` and sold back
at the rate of the pool after the purchase pay out at most the amount paid. -/
theorem round_trip_bound (P S A rate : Nat) (hS : 0 < S)
    (hrate : rate = P * SCALE / S) :
    (A * SCALE / rate) * ((P + A) * SCALE / (S + A * SCALE / rate)) / SCALE ≤ A := by
  have hK : 0 < SCALE := SCALE_pos
  set sh := A * SCALE / rate with hsh
  set r2 := (P + A) * SCALE / (S + sh) with hr2
  rcases le_or_lt r2 rate with hle | hgt
  · have h1 : sh * rate ≤ A * SCALE := by
      rw [hsh]
      exact Nat.div_mul_le_self _ _
    have h2 : sh * r2 ≤ A * SCALE := le_trans (Nat.mul_le_mul_left _ hle) h1
    calc sh * r2 / SCALE ≤ A * SCALE / SCALE := Nat.div_le_div_right h2
    _ = A := Nat.mul_div_cancel _ hK
  · have h1 : r2 * (S + sh) ≤ (P + A) * SCALE := by
      rw [hr2]
      exact Nat.div_mul_le_self _ _
    have h2 : P * SCALE < S * rate + S := by
      have hml : P * SCALE % S < S := Nat.mod_lt _ hS
      calc P * SCALE = S * (P * SCALE / S) + P * SCALE % S := (Nat.div_add_mod _ _).symm
      _ = S * rate + P * SCALE % S := by rw [hrate]
      _ < S * rate + S := Nat.add_lt_add_left hml _
    have h3 : S * rate + S ≤ S * r2 := by
      have hr2' : rate + 1 ≤ r2 := hgt
      calc S * rate + S = S * (rate + 1) := by ring
      _ ≤ S * r2 := Nat.mul_le_mul_left _ hr2'
    have h4 : sh * r2 < A * SCALE := by
      have he : r2 * (S + sh) = S * r2 + sh * r2 := by ring
      have h5 : S * r2 + sh * r2 ≤ (P + A) * SCALE := he ▸ h1
      have h6 : (P + A) * SCALE < S * r2 + A * SCALE := by
        calc (P + A) * SCALE = P * SCALE + A * SCALE := by ring
        _ < S * rate + S + A * SCALE := Nat.add_lt_add_right h2 _
        _ ≤ S * r2 + A * SCALE := Nat.add_le_add_right h3 _
      exact Nat.lt_of_add_lt_add_left (lt_of_le_of_lt h5 h6)
    calc sh * r2 / SCALE ≤ A * SCALE / SCALE := Nat.div_le_div_right (le_of_lt h4)
    _ = A := Nat.mul_div_cancel _ hK

/-- A redemption of at most the whole share supply pays out at most the
redeemable pool value. -/
theorem payout_le_pool (P S burn rate : Nat) (hburn : burn ≤ S)
    (hrate : rate = P * SCALE / S) : burn * rate / SCALE ≤ P := by
  have h1 : S * rate ≤ P * SCALE := by
    rw [hrate, Nat.mul_comm]
    exact Nat.div_mul_le_self _ _
  have h2 : burn * rate ≤ P * SCALE := le_trans (Nat.mul_le_mul_right _ hburn) h1
  calc burn * rate / SCALE ≤ P * SCALE / SCALE := Nat.div_le_div_right h2
  _ = P := Nat.mul_div_cancel _ SCALE_pos

/-- Every single serialized operation preserves the reserve-bound
invariant. -/
theorem step_preserves_reserveInv (st : PoolState) (op : Op) (hinv : reserveInv st) :
    reserveInv (step st op) := by
  unfold reserveInv at *
  cases op with
  | depositOp a h r =>
    simp only [step]
    split
    · rename_i st2 sh heq
      obtain ⟨stA, rate, hacc, hcer, -, -, -, hst2⟩ := deposit_ok_facts heq
      obtain ⟨hcash, hres, -, -, hliab, -, -⟩ := accrue_ok_facts hacc
      subst hst2
      simp only
      omega
    · exact hinv
  | redeemOp s h r =>
    simp only [step]
    split
    · rename_i hown
      split
      · rename_i st2 out heq
        obtain ⟨stA, rate, hacc, hcer, hs0, hout, houtle, hst2⟩ := redeem_ok_facts heq
        obtain ⟨hcash, hres, hsup, -, hliab, -, -⟩ := accrue_ok_facts hacc
        have hsupne : stA.aterra_supply ≠ 0 := by omega
        obtain ⟨hresle, hrate⟩ := cer_ok_pos hsupne hcer
        have hple : out ≤ stA.cash + stA.total_liabilities - stA.total_reserves := by
          rw [hout]
          exact payout_le_pool _ _ _ _ (by omega) hrate
        subst hst2
        simp only
        omega
      · exact hinv
    · exact hinv
  | accrueOp h r =>
    simp only [step]
    split
    · rename_i st2 hacc
      obtain ⟨hcash, hres, -, -, hliab, -, -⟩ := accrue_ok_facts hacc
      omega
    · exact hinv
  | epochOp h r adj em absorb elapsed =>
    simp only [step]
    split
    · rename_i st2 heq
      unfold execute_epoch_operations at heq
      split at heq
      · exact absurd heq (by simp)
      · split at heq
        · exact absurd heq (by simp)
        · rename_i stA hacc
          obtain ⟨hcash, hres, -, -, hliab, -, -⟩ := accrue_ok_facts hacc
          injection heq with h2
          subst h2
          simp only
          rcases absorb with - | -
          · simp only [Bool.false_eq_true, if_false]
            omega
          · simp only [if_true]
            have := Nat.min_le_right (stA.total_reserves + adj)
              (stA.cash + stA.total_liabilities)
            omega
    · exact hinv

/-- Folding serialized operations preserves the reserve-bound invariant. -/
theorem foldl_step_reserveInv (ops : List Op) :
    ∀ st : PoolState, reserveInv st → reserveInv (List.foldl step st ops) := by
  induction ops with
  | nil => exact fun st h => h
  | cons op rest ih =>
    intro st h
    exact ih (step st op) (step_preserves_reserveInv st op h)

/-- Claim C1, counterexample: at cash 0, liabilities 0, reserves 1 and share
supply 0 we have cash + liabilities < reserves, yet `compute_exchange_rate`
returns the bootstrap rate 1.0 instead of failing with `ReserveExceedsPool`
(the bootstrap case takes precedence, as the spec's testable property demands
a 1.0 result at zero supply regardless of the reserves), so the claim's
failure clause is false as stated. -/
theorem c1_counterexample :
    0 + 0 < 1 ∧ compute_exchange_rate 0 0 1 0 = .ok SCALE ∧
    compute_exchange_rate 0 0 1 0 ≠ .error .ReserveExceedsPool := by
  refine ⟨by decide, rfl, ?_⟩
  intro hc
  simp [compute_exchange_rate] at hc

/-- Claim C1 (amended): for every input with a positive share supply,
`compute_exchange_rate` returns
`(cash_balance + total_liabilities - total_reserves) / share_supply` under
floor division when `cash_balance + total_liabilities >= total_reserves`, and
fails with `ReserveExceedsPool` when `cash_balance + total_liabilities <
total_reserves`. -/
theorem compute_exchange_rate_spec (cash liab res supply : Nat) :
    (0 < supply → res ≤ cash + liab →
      compute_exchange_rate cash liab res supply =
        .ok ((cash + liab - res) * SCALE / supply)) ∧
    (0 < supply → cash + liab < res →
      compute_exchange_rate cash liab res supply = .error .ReserveExceedsPool) := by
  constructor
  · intro hs hge
    unfold compute_exchange_rate
    rw [if_neg (by omega), if_neg (by omega)]
  · intro hs hlt
    unfold compute_exchange_rate
    rw [if_neg (by omega), if_pos hlt]

/-- Witness for claim C1's amended theorem at concrete inputs: a regular rate
computation and a reserve-exceeds-pool failure, both at positive supply. -/
theorem compute_exchange_rate_spec_witness :
    compute_exchange_rate 5 3 2 2 = .ok ((5 + 3 - 2) * SCALE / 2) ∧
    compute_exchange_rate 0 0 5 2 = .error .ReserveExceedsPool :=
  ⟨(compute_exchange_rate_spec 5 3 2 2).1 (by decide) (by decide),
   (compute_exchange_rate_spec 0 0 5 2).2 (by decide) (by decide)⟩

/-- Claim C2: for every cash balance, liabilities and reserves,
`compute_exchange_rate` at share supply zero returns exactly 1.0 (the
bootstrap rate, `SCALE` in the fixed-point representation). -/
theorem compute_exchange_rate_bootstrap (cash liab res : Nat) :
    compute_exchange_rate cash liab res 0 = .ok SCALE := by
  unfold compute_exchange_rate
  simp

/-- Claim C7: the pool state record stored at contract instantiation has
`total_liabilities = 0`, `total_reserves = 0`, `global_interest_index = 1`
(`SCALE` in fixed point), `global_reward_index = 0` and
`prev_aterra_supply = 0`. -/
theorem init_state_fields (block_height msg_anc_emission_rate : Nat) :
    (init block_height msg_anc_emission_rate).total_liabilities = 0 ∧
    (init block_height msg_anc_emission_rate).total_reserves = 0 ∧
    (init block_height msg_anc_emission_rate).global_interest_index = SCALE ∧
    (init block_height msg_anc_emission_rate).global_reward_index = 0 ∧
    (init block_height msg_anc_emission_rate).prev_aterra_supply = 0 :=
  ⟨rfl, rfl, rfl, rfl, rfl⟩

/-- Claim C8: a cw20 `Receive` carrying the `RedeemStable` hook from a sender
other than the configured aterra contract fails with `Unauthorized` and leaves
the pool state unchanged, and `redeem_stable` is invoked exactly when the
sender is the configured aterra contract. -/
theorem receive_cw20_auth (sender : Nat) (config : MarketConfig) (amount : Nat)
    (st : PoolState) (height borrow_rate : Nat) :
    (sender ≠ config.aterra_contract →
      receive_cw20 (.ok .RedeemStable) sender config amount st height borrow_rate =
        .error .Unauthorized ∧
      stepReceive (.ok .RedeemStable) sender config amount st height borrow_rate = st) ∧
    (sender = config.aterra_contract →
      receive_cw20 (.ok .RedeemStable) sender config amount st height borrow_rate =
        redeem_stable st amount height borrow_rate) := by
  constructor
  · intro hne
    have h1 : receive_cw20 (.ok .RedeemStable) sender config amount st height borrow_rate =
        .error .Unauthorized := by
      unfold receive_cw20
      rw [if_pos hne]
    refine ⟨h1, ?_⟩
    unfold stepReceive
    rw [h1]
  · intro heq
    unfold receive_cw20
    rw [if_neg (by simp [heq])]

/-- Witness for claim C8 at concrete inputs: sender 3 against configured
aterra contract 7 is rejected with `Unauthorized` without a state change, and
sender 7 runs `redeem_stable`. -/
theorem receive_cw20_auth_witness :
    (receive_cw20 (.ok .RedeemStable) 3 ⟨7⟩ 1 (initPoolState 0 0 0 0) 0 0 =
        .error .Unauthorized ∧
      stepReceive (.ok .RedeemStable) 3 ⟨7⟩ 1 (initPoolState 0 0 0 0) 0 0 =
        initPoolState 0 0 0 0) ∧
    receive_cw20 (.ok .RedeemStable) 7 ⟨7⟩ 1 (initPoolState 0 0 0 0) 0 0 =
      redeem_stable (initPoolState 0 0 0 0) 1 0 0 :=
  ⟨(receive_cw20_auth 3 ⟨7⟩ 1 (initPoolState 0 0 0 0) 0 0).1 (by decide),
   (receive_cw20_auth 7 ⟨7⟩ 1 (initPoolState 0 0 0 0) 0 0).2 rfl⟩

/-- Claim C10: a cw20 `Receive` whose payload does not deserialize to the
`RedeemStable` hook fails with `MissingRedeemStableHook` and leaves the pool
state unchanged. -/
theorem receive_cw20_missing_hook (e : Unit) (sender : Nat) (config : MarketConfig)
    (amount : Nat) (st : PoolState) (height borrow_rate : Nat) :
    receive_cw20 (.error e) sender config amount st height borrow_rate =
      .error .MissingRedeemStableHook ∧
    stepReceive (.error e) sender config amount st height borrow_rate = st :=
  ⟨rfl, rfl⟩

/-- Claim C9, counterexample (negation): the query interface of
src/contract.rs lines 212-233 never produces a pool-state response; only
balance and config responses are reachable, so no state query returning
`total_liabilities`, `total_reserves`, the indices, the emission rate, the
exchange rate and the aterra supply is exposed. -/
theorem query_no_state_response :
    ¬ ∃ (deps : ContractStore) (msg : QueryMsg) (tl tr gi gr em er su : Nat),
        query deps msg = .state tl tr gi gr em er su := by
  rintro ⟨deps, msg, tl, tr, gi, gr, em, er, su, hq⟩
  cases msg <;> exact absurd hq (by simp [query])

/-- Claim C9 (amended): the exposed read-only query interface provides exactly
a balance query, returning the stored balance of the given address, and a
config query, returning name, symbol and owner; every response is one of
these two, and no pool-state query is exposed. -/
theorem query_balance_config (deps : ContractStore) :
    (∀ address, query deps (.Balance address) = .balance (deps.balances address)) ∧
    query deps .Config =
      .configRes deps.config.name deps.config.symbol deps.config.owner ∧
    ∀ msg, (∃ b, query deps msg = .balance b) ∨
      (∃ n s o, query deps msg = .configRes n s o) := by
  refine ⟨fun _ => rfl, rfl, fun msg => ?_⟩
  cases msg
  · exact Or.inl ⟨_, rfl⟩
  · exact Or.inr ⟨_, _, _, rfl⟩

/-- Claim C4: over every successful sequence of accrual calls (success forces
non-decreasing block heights, since a regressing height fails with
`BlockHeightRegression`), `global_interest_index` and `total_liabilities` are
non-decreasing, and a second accrual call at the same height as the previous
one returns the state unchanged. -/
theorem accrual_monotone_idempotent :
    (∀ (calls : List (Nat × Nat)) (st st2 : PoolState),
        runAccruals st calls = .ok st2 →
        st.total_liabilities ≤ st2.total_liabilities ∧
        st.global_interest_index ≤ st2.global_interest_index) ∧
    (∀ (st st2 : PoolState) (height r r2 : Nat),
        accrue st height r = .ok st2 → accrue st2 height r2 = .ok st2) := by
  constructor
  · exact runAccruals_mono
  · intro st st2 height r r2 hacc
    obtain ⟨-, -, -, hlast, -, -, -⟩ := accrue_ok_facts hacc
    exact accrue_at_last hlast r2

/-- State before the witness accrual run for claim C4. -/
def w4a : PoolState := initPoolState 0 0 0 0

/-- State after the witness accrual run for claim C4: height advanced to 5 at
borrow rate 0, liabilities and index unchanged. -/
def w4b : PoolState :=
  { cash := 0, total_liabilities := 0, total_reserves := 0, aterra_supply := 0,
    global_interest_index := SCALE, last_interest_updated := 5,
    anc_emission_rate := 0 }

/-- Witness for claim C4: one accrual call from height 0 to height 5 at rate 0
leaves liabilities and index no smaller, and a repeated call at height 5 is a
no-op. -/
theorem accrual_monotone_idempotent_witness :
    (w4a.total_liabilities ≤ w4b.total_liabilities ∧
     w4a.global_interest_index ≤ w4b.global_interest_index) ∧
    accrue w4b 5 0 = .ok w4b :=
  ⟨accrual_monotone_idempotent.1 [(5, 0)] w4a w4b rfl,
   accrual_monotone_idempotent.2 w4a w4b 5 0 0 rfl⟩

/-- Claim C5: after every sequence of operations (deposit, redeem, accrual,
epoch reconciliation) from the initial state, the pool state satisfies
`0 ≤ total_reserves ≤ cash_balance + total_liabilities`. -/
theorem reserve_bound_after_ops (cash0 supply0 emission0 height0 : Nat) (ops : List Op) :
    0 ≤ (List.foldl step (initPoolState cash0 supply0 emission0 height0) ops).total_reserves ∧
    (List.foldl step (initPoolState cash0 supply0 emission0 height0) ops).total_reserves ≤
      (List.foldl step (initPoolState cash0 supply0 emission0 height0) ops).cash +
        (List.foldl step (initPoolState cash0 supply0 emission0 height0) ops).total_liabilities :=
  ⟨Nat.zero_le _, foldl_step_reserveInv ops _ (Nat.zero_le _)⟩

/-- Claim C6: for a positive share amount, with accrual and the exchange-rate
computation succeeding, a redemption fails with `InsufficientPoolLiquidity`
exactly when the floor-rounded payout `shares * exchange_rate` exceeds the
current cash balance (accrual leaves the cash balance unchanged), and in
particular never fails with that error when the payout is covered. -/
theorem redeem_insufficient_liquidity_iff (st stA : PoolState)
    (shares height borrow_rate rate : Nat)
    (hS : 0 < shares)
    (hacc : accrue st height borrow_rate = .ok stA)
    (hrate : compute_exchange_rate stA.cash stA.total_liabilities stA.total_reserves
        stA.aterra_supply = .ok rate) :
    redeem_stable st shares height borrow_rate = .error .InsufficientPoolLiquidity ↔
      stA.cash < shares * rate / SCALE := by
  have h1 : redeem_stable st shares height borrow_rate =
      if stA.cash < shares * rate / SCALE then .error .InsufficientPoolLiquidity
      else .ok ({ stA with
                  cash := stA.cash - shares * rate / SCALE,
                  aterra_supply := stA.aterra_supply - shares },
                shares * rate / SCALE) := by
    unfold redeem_stable
    rw [if_neg (by omega), hacc]
    dsimp only
    rw [hrate]
  rw [h1]
  split
  · rename_i hlt
    exact ⟨fun _ => hlt, fun _ => rfl⟩
  · rename_i hge
    constructor
    · intro hcontra
      exact absurd hcontra (by simp)
    · intro hcontra
      exact absurd hcontra hge

/-- State for the witness of claim C6: cash 1, liabilities 10, one share
outstanding, so redeeming the single share computes a payout of 11. -/
def w6st : PoolState :=
  { cash := 1, total_liabilities := 10, total_reserves := 0, aterra_supply := 1,
    global_interest_index := SCALE, last_interest_updated := 0,
    anc_emission_rate := 0 }

/-- Witness for claim C6: redeeming one share whose payout (11) exceeds the
cash balance (1) fails with `InsufficientPoolLiquidity`. -/
theorem redeem_insufficient_liquidity_iff_witness :
    redeem_stable w6st 1 0 0 = .error .InsufficientPoolLiquidity :=
  (redeem_insufficient_liquidity_iff w6st w6st 1 0 0 (11 * SCALE)
    (by decide) rfl rfl).mpr (by decide)

/-- Pool state with one unit of unbacked cash and zero share supply, before
the counterexample deposit for claim C3. -/
def c3cx0 : PoolState :=
  { cash := 1, total_liabilities := 0, total_reserves := 0, aterra_supply := 0,
    global_interest_index := SCALE, last_interest_updated := 0,
    anc_emission_rate := 0 }

/-- Pool state after the counterexample deposit for claim C3. -/
def c3cx1 : PoolState :=
  { cash := 2, total_liabilities := 0, total_reserves := 0, aterra_supply := 1,
    global_interest_index := SCALE, last_interest_updated := 0,
    anc_emission_rate := 0 }

/-- Pool state after the counterexample redemption for claim C3. -/
def c3cx2 : PoolState :=
  { cash := 0, total_liabilities := 0, total_reserves := 0, aterra_supply := 0,
    global_interest_index := SCALE, last_interest_updated := 0,
    anc_emission_rate := 0 }

/-- Claim C3, counterexample: with share supply 0 but one unit of pre-existing
cash, depositing 1 mints 1 share at the bootstrap rate 1.0, and immediately
redeeming that share at the same height pays out the whole pool, 2 > 1; the
round-trip clause of the claim fails when the pre-deposit share supply is
zero. -/
theorem deposit_redeem_counterexample :
    deposit_stable c3cx0 1 0 0 = .ok (c3cx1, 1) ∧
    redeem_stable c3cx1 1 0 0 = .ok (c3cx2, 2) ∧ ¬(2 ≤ 1) :=
  ⟨rfl, rfl, by decide⟩

/-- Claim C3 (amended): for every deposit of `amount > 0` (success of the
deposit forces a positive amount), the shares minted satisfy
`shares * exchange_rate ≤ amount` (stated in fixed point:
`shares * rate ≤ amount * SCALE`) — unconditionally, for every successful
deposit, whatever the pre-deposit supply and whether or not a redemption
follows; and when the pre-deposit share supply is positive, depositing
`amount` and then immediately redeeming the minted shares at the same block
height (so no interest accrues in between) pays out at most `amount`.  The
hypotheses `hacc` and `hrate` only name the intermediate accrued state and
exchange rate of the deposit; both hold for every successful deposit. -/
theorem deposit_redeem_round_trip (st stA st1 : PoolState)
    (amount height borrow_rate rate sh : Nat)
    (hacc : accrue st height borrow_rate = .ok stA)
    (hrate : compute_exchange_rate stA.cash stA.total_liabilities stA.total_reserves
        stA.aterra_supply = .ok rate)
    (hdep : deposit_stable st amount height borrow_rate = .ok (st1, sh)) :
    sh * rate ≤ amount * SCALE ∧
    (0 < st.aterra_supply → ∀ (st2 : PoolState) (out : Nat),
      redeem_stable st1 sh height borrow_rate = .ok (st2, out) → out ≤ amount) := by
  obtain ⟨stA', rate', hacc', hcer', hA0, hr0, hshval, hst1⟩ := deposit_ok_facts hdep
  rw [hacc] at hacc'
  injection hacc' with hstAeq
  subst hstAeq
  rw [hrate] at hcer'
  injection hcer' with hrateeq
  subst hrateeq
  constructor
  · rw [hshval]
    exact Nat.div_mul_le_self _ _
  · intro hsup st2 out hred
    obtain ⟨stB, rate2, hacc2, hcer2, hsh0, houtval, houtle, hst2⟩ := redeem_ok_facts hred
    obtain ⟨hcash, hres, hsupA, hlastA, -, -, -⟩ := accrue_ok_facts hacc
    have hlast1 : st1.last_interest_updated = height := by
      rw [hst1]
      exact hlastA
    rw [accrue_at_last hlast1 borrow_rate] at hacc2
    injection hacc2 with hstBeq
    subst hstBeq
    have hsupA' : stA.aterra_supply ≠ 0 := by omega
    obtain ⟨hres1, hrval⟩ := cer_ok_pos hsupA' hrate
    have hsup1 : st1.aterra_supply ≠ 0 := by
      rw [hst1]
      show stA.aterra_supply + amount * SCALE / rate ≠ 0
      omega
    obtain ⟨hres2, hr2val⟩ := cer_ok_pos hsup1 hcer2
    have hfields1 : st1.cash = stA.cash + amount ∧
        st1.total_liabilities = stA.total_liabilities ∧
        st1.total_reserves = stA.total_reserves ∧
        st1.aterra_supply = stA.aterra_supply + sh := by
      rw [hst1, hshval]
      exact ⟨rfl, rfl, rfl, rfl⟩
    obtain ⟨hc1, hl1, hr1, hs1⟩ := hfields1
    have hnum : st1.cash + st1.total_liabilities - st1.total_reserves =
        stA.cash + stA.total_liabilities - stA.total_reserves + amount := by
      omega
    rw [houtval, hr2val, hnum, hs1, hshval]
    exact round_trip_bound (stA.cash + stA.total_liabilities - stA.total_reserves)
      stA.aterra_supply amount rate (by omega) hrval

/-- Pool state before the witness round trip for claim C3: cash 100 against
supply 100, exchange rate 1.0. -/
def w3st : PoolState :=
  { cash := 100, total_liabilities := 0, total_reserves := 0, aterra_supply := 100,
    global_interest_index := SCALE, last_interest_updated := 0,
    anc_emission_rate := 0 }

/-- Pool state after the witness deposit for claim C3. -/
def w3st1 : PoolState :=
  { cash := 150, total_liabilities := 0, total_reserves := 0, aterra_supply := 150,
    global_interest_index := SCALE, last_interest_updated := 0,
    anc_emission_rate := 0 }

/-- Pool state after the witness redemption for claim C3. -/
def w3st2 : PoolState :=
  { cash := 100, total_liabilities := 0, total_reserves := 0, aterra_supply := 100,
    global_interest_index := SCALE, last_interest_updated := 0,
    anc_emission_rate := 0 }

/-- Witness for claim C3's amended theorem: depositing 50 at rate 1.0 mints 50
shares satisfying the mint bound, and redeeming them immediately pays back
exactly 50. -/
theorem deposit_redeem_round_trip_witness :
    50 * SCALE ≤ 50 * SCALE ∧ 50 ≤ 50 :=
  ⟨(deposit_redeem_round_trip w3st w3st w3st1 50 0 0 SCALE 50 rfl rfl rfl).1,
   (deposit_redeem_round_trip w3st w3st w3st1 50 0 0 SCALE 50 rfl rfl rfl).2
     (by decide) w3st2 50 rfl⟩

end AnchorMarket
